import Mathlib

/-!
The `sql::SQLL` session of `SQL.h`.

A shallow embedding of the class `sql::SQLL`, a thin wrapper around the sqlite3 C API, and
proofs about its prepare / bind / step / fetch protocol and the lifetime of its statement
and buffers.

The sqlite3 engine is not part of the repository. It is a parameter of the model: an
`Engine W` gives the result of every API function the class calls, over an arbitrary engine
state `W`. Every theorem holds for every engine. The session carries a log of the calls it
made, so that statements about which calls happen, and in which order, can be made.

`MAX_STRING_LENGTH` comes from the header `sqlcpp.h`, which is not part of the repository
either; it is a parameter of `num_params`.
-/

namespace sql

/-! ## C strings and `num_params` -/

/-- A C string: the characters before the terminator, one list element per `char`. -/
abbrev CStr := List Char

/-- Conversion to `int` (32 bits, two's complement). Signed overflow is undefined in C++;
the model wraps, and the theorems cover the inputs on which no overflow occurs. -/
def toInt32 (z : Int) : Int := (z + 2147483648) % 4294967296 - 2147483648

/-- Conversion of an `int` to `size_t` (64 bits), as in the comparison `i < len`. -/
def toSizeT (z : Int) : Nat := (z % 18446744073709551616).toNat

/-- `strlen`: the number of characters before the first terminator. -/
def strlen (s : CStr) : Nat := (s.takeWhile (fun c => c != Char.ofNat 0)).length

/-- `strnlen(s, maxlen)`. -/
def strnlen (s : CStr) (maxlen : Nat) : Nat := min (strlen s) maxlen

/-- The loop `for (int i = 0; i < len; ++i) if (sql[i] == bind_char) ++count;`. The first
argument bounds the number of iterations; `none` means the bound was used up. -/
def num_params_loop (sql : CStr) (len : Nat) : Nat → Int → Int → Option Int
  | 0, _, _ => none
  | fuel + 1, i, count =>
    if toSizeT i < len then
      num_params_loop sql len fuel (toInt32 (i + 1))
        (if sql.get? (toSizeT i) = some '?' then toInt32 (count + 1) else count)
    else some count

/-- `num_params`, with `bind_char = '?'`. -/
def num_params (MAX_STRING_LENGTH : Nat) (sql : CStr) : Option Int :=
  let len := strnlen sql MAX_STRING_LENGTH
  num_params_loop sql len (len + 1) 0 0


/-! ## The database engine (external collaborator) -/

/-- Opaque handles (`sqlite3*`, `sqlite3_stmt*`); a null pointer is `none : Option Handle`. -/
abbrev Handle := Nat

/-- A `const char*` cell of a row or column-name buffer: text, or a null pointer. -/
abbrev Cell := Option CStr

/-- The result code `SQLITE_ROW` of `sqlite3_step`. -/
def SQLITE_ROW : Int := 100

/-- One observable interaction of the session with the engine or with standard output.
`bind_text … none` is the call of `sqlite3_bind_text` with a value that `va_arg` read past
the supplied arguments, and `changes none` the call of `sqlite3_changes` on a null
connection; both are undefined behaviour of the program. -/
inductive Call where
  | prepare_v2 (db : Option Handle) (sql : CStr) (rc : Int) (out : Option Handle)
  | bind_text (stmt : Option Handle) (param_no : Nat) (value : Option CStr)
  | step (stmt : Option Handle) (rc : Int)
  | finalize (stmt : Handle)
  | close (db : Handle)
  | changes (db : Option Handle)
  | printf (text : CStr)
  deriving DecidableEq

/-- The part of the sqlite3 C API the class consumes, over an engine state `W`. The engine
decides what `prepare_v2` and `step` do with a null pointer, so these take an
`Option Handle`; the other functions take a handle, and the functions `sqlite3_…` below say
what happens when the class passes a null pointer to them. `bind_text` takes a text: the
engine is never asked what it does with a pointer that was not supplied. The number of
result columns and the number of placeholders are fixed when a statement is compiled, so
they depend on the statement only; both are non-negative. -/
structure Engine (W : Type) where
  prepare_v2 : W → Option Handle → CStr → Int × Option Handle × W
  column_count : Handle → Nat
  bind_parameter_count : Handle → Nat
  bind_text : W → Handle → Nat → CStr → W
  step : W → Option Handle → Int × W
  column_text : W → Handle → Nat → Cell
  column_name : W → Handle → Nat → Cell
  finalize : W → Handle → W
  close : W → Handle → W
  changes : W → Handle → Int
  errmsg : W → Handle → CStr

/-! ## The session object `sql::SQLL` -/

/-- The data members of `SQLL`, the engine state, and three ghost fields: `log`, the history
of engine calls and prints; `fault`, set when a buffer is accessed outside its bounds; and
`undefined`, set when the program reads a variadic argument that was not supplied or calls
`sqlite3_changes` on a null connection. Once `undefined` is set the program's behaviour is
undefined (it may have died in that call), and the values of the model no longer describe
it. -/
structure SQLL (W : Type) where
  _filename : Option CStr
  _db : Option Handle
  _stmt : Option Handle
  _num_sql_cols : Nat
  _sql_colnames : Option (List Cell)
  _row : Option (List Cell)
  world : W
  log : List Call
  fault : Bool
  undefined : Bool
  deriving DecidableEq

variable {W : Type}

/-- The constructor `SQLL(const char* filename)`: it stores the file name and nothing else. -/
def SQLL.new (filename : Option CStr) (w : W) : SQLL W :=
  { _filename := filename, _db := none, _stmt := none, _num_sql_cols := 0,
    _sql_colnames := none, _row := none, world := w, log := [], fault := false,
    undefined := false }

def num_sql_columns (s : SQLL W) : Nat := s._num_sql_cols

def filename (s : SQLL W) : Option CStr := s._filename

def db (s : SQLL W) : Option Handle := s._db

def stmt (s : SQLL W) : Option Handle := s._stmt

/-- `sqlite3_column_count`, which is 0 for a null statement. -/
def sqlite3_column_count (E : Engine W) (st : Option Handle) : Nat :=
  match st with
  | some h => E.column_count h
  | none => 0

/-- `sqlite3_bind_parameter_count`, which is 0 for a null statement. -/
def sqlite3_bind_parameter_count (E : Engine W) (st : Option Handle) : Nat :=
  match st with
  | some h => E.bind_parameter_count h
  | none => 0

/-- `sqlite3_bind_text(_stmt, param_no, param, -1, SQLITE_STATIC)`. With a `param` that was
not supplied the engine would read the text behind an indeterminate pointer: the call is
recorded and the behaviour is undefined from there. -/
def sqlite3_bind_text (E : Engine W) (s : SQLL W) (param_no : Nat) (param : Option CStr) :
    SQLL W :=
  match param with
  | none => { s with log := s.log ++ [Call.bind_text s._stmt param_no none],
                     undefined := true }
  | some text =>
    match s._stmt with
    | some h => { s with world := E.bind_text s.world h param_no text,
                         log := s.log ++ [Call.bind_text (some h) param_no (some text)] }
    | none => { s with log := s.log ++ [Call.bind_text none param_no (some text)] }

/-- `sqlite3_step(_stmt)`. -/
def sqlite3_step (E : Engine W) (s : SQLL W) : Int × SQLL W :=
  let r := E.step s.world s._stmt
  (r.1, { s with world := r.2, log := s.log ++ [Call.step s._stmt r.1] })

/-- `sqlite3_changes(_db)`. The engine reads the counter through the connection pointer.
On a null connection that is a null dereference: the call is recorded, no value comes back
(`none`), and the behaviour is undefined from there. -/
def sqlite3_changes (E : Engine W) (s : SQLL W) : Option Int × SQLL W :=
  match s._db with
  | some d => (some (E.changes s.world d), { s with log := s.log ++ [Call.changes (some d)] })
  | none => (none, { s with log := s.log ++ [Call.changes none], undefined := true })

def sqlite3_column_text (E : Engine W) (s : SQLL W) (index : Nat) : Cell :=
  match s._stmt with
  | some h => E.column_text s.world h index
  | none => none

def sqlite3_column_name (E : Engine W) (s : SQLL W) (index : Nat) : Cell :=
  match s._stmt with
  | some h => E.column_name s.world h index
  | none => none

def printf (s : SQLL W) (text : CStr) : SQLL W :=
  { s with log := s.log ++ [Call.printf text] }

/-- `va_arg(ap, const char*)`: the next supplied argument. Once the supplied arguments are
used up the read is undefined behaviour; `none` marks such a read, and `sqlite3_bind_text`
sets `undefined` when it is handed one. -/
def va_arg (ap : List CStr) : Option CStr × List CStr :=
  match ap with
  | p :: rest => (some p, rest)
  | [] => (none, [])

/-- The assignment `buf[index] = v` on a heap array that may be null. The second component
reports a store through a null pointer or outside the array. -/
def store (buf : Option (List Cell)) (index : Nat) (v : Cell) : Option (List Cell) × Bool :=
  match buf with
  | some b => if index < b.length then (some (b.set index v), false) else (some b, true)
  | none => (none, true)

def reset_stmt (E : Engine W) (s : SQLL W) : SQLL W :=
  let s := { s with _num_sql_cols := 0 }
  let s := match s._stmt with
    | some h => { s with world := E.finalize s.world h, log := s.log ++ [Call.finalize h],
                         _stmt := none }
    | none => s
  let s := match s._row with
    | some _ => { s with _row := none }
    | none => s
  match s._sql_colnames with
  | some _ => { s with _sql_colnames := none }
  | none => s

def reset (E : Engine W) (s : SQLL W) : SQLL W :=
  let s := reset_stmt E s
  match s._db with
  | some d => { s with world := E.close s.world d, log := s.log ++ [Call.close d], _db := none }
  | none => s

def error_msg (E : Engine W) (str : Option CStr) (s : SQLL W) : SQLL W :=
  let s := match str with
    | some t => printf s (t ++ ": ".toList)
    | none => s
  match s._db with
  | some d => printf s (E.errmsg s.world d ++ [Char.ofNat 10])
  | none => printf s ("unknown error".toList ++ [Char.ofNat 10])

/-- `error`: the state in which the process leaves through `exit(0)`. -/
def error (E : Engine W) (str : Option CStr) (s : SQLL W) : SQLL W :=
  reset E (error_msg E str s)

/-- The loop `for (param_no = 1; param_no <= col_count; ++param_no)` of `_sql_prepare`;
the first argument bounds the number of iterations and `col_count` of them suffice. -/
def bind_loop (E : Engine W) (col_count : Nat) : Nat → Nat → List CStr → SQLL W → SQLL W
  | 0, _, _, s => s
  | fuel + 1, param_no, ap, s =>
    if param_no ≤ col_count then
      let a := va_arg ap
      bind_loop E col_count fuel (param_no + 1) a.2 (sqlite3_bind_text E s param_no a.1)
    else s

def _sql_prepare (E : Engine W) (sql : CStr) (ap : List CStr) (s : SQLL W) : Nat × SQLL W :=
  let s := reset_stmt E s
  let r := E.prepare_v2 s.world s._db sql
  let rc := r.1
  let s := { s with _stmt := r.2.1, world := r.2.2,
                    log := s.log ++ [Call.prepare_v2 s._db sql rc r.2.1] }
  if rc ≠ 0 then
    let s := error_msg E (some "sql_prepare".toList) s
    let s := reset_stmt E s
    (0, s)
  else
    let s := { s with _num_sql_cols := sqlite3_column_count E s._stmt }
    let col_count := sqlite3_bind_parameter_count E s._stmt
    if col_count ≠ 0 then
      (col_count, bind_loop E col_count col_count 1 ap s)
    else (col_count, s)

def sql_prepare (E : Engine W) (sql : CStr) (ap : List CStr) (s : SQLL W) : Nat × SQLL W :=
  let s := (_sql_prepare E sql ap s).2
  (num_sql_columns s, s)

/-- `sql_do`. The result is `none` when the final `sqlite3_changes(_db)` is made on a null
connection and so returns nothing; the state is then the one in which that call is made. -/
def sql_do (E : Engine W) (sql : CStr) (ap : List CStr) (s : SQLL W) : Option Int × SQLL W :=
  let s := (_sql_prepare E sql ap s).2
  let s := (sqlite3_step E s).2
  let s := reset_stmt E s
  sqlite3_changes E s

/-- The loop `for (index = 0; index < _num_sql_cols; ++index) _row[index] = …`. -/
def row_loop (E : Engine W) : Nat → Nat → SQLL W → SQLL W
  | 0, _, s => s
  | fuel + 1, index, s =>
    if index < s._num_sql_cols then
      let r := store s._row index (sqlite3_column_text E s index)
      row_loop E fuel (index + 1) { s with _row := r.1, fault := s.fault || r.2 }
    else s

def fetch_row (E : Engine W) (s : SQLL W) : Option (List Cell) × SQLL W :=
  match s._stmt with
  | none => (none, reset_stmt E s)
  | some _ =>
    let r := sqlite3_step E s
    let s := r.2
    if r.1 ≠ SQLITE_ROW then (none, reset_stmt E s)
    else
      let s := if s._num_sql_cols ≠ 0 ∧ s._row = none then
          { s with _row := some (List.replicate s._num_sql_cols none) }
        else s
      let s := row_loop E s._num_sql_cols 0 s
      (s._row, s)

/-- The loop `for (index = 0; index < _num_sql_cols; ++index) _sql_colnames[index] = …`. -/
def colnames_loop (E : Engine W) : Nat → Nat → SQLL W → SQLL W
  | 0, _, s => s
  | fuel + 1, index, s =>
    if index < s._num_sql_cols then
      let r := store s._sql_colnames index (sqlite3_column_name E s index)
      colnames_loop E fuel (index + 1) { s with _sql_colnames := r.1, fault := s.fault || r.2 }
    else s

def sql_column_names (E : Engine W) (s : SQLL W) : Option (List Cell) × SQLL W :=
  match s._stmt with
  | none => (none, reset_stmt E s)
  | some _ =>
    let s := if s._num_sql_cols ≠ 0 ∧ s._sql_colnames = none then
        { s with _sql_colnames := some (List.replicate s._num_sql_cols none) }
      else s
    let s := colnames_loop E s._num_sql_cols 0 s
    (s._sql_colnames, s)

def sql_value (E : Engine W) (sql : CStr) (ap : List CStr) (s : SQLL W) : Cell × SQLL W :=
  let s := (_sql_prepare E sql ap s).2
  let r := fetch_row E s
  match r.1 with
  | some row =>
    match row with
    | v :: _ => (v, r.2)
    | [] => (none, { r.2 with fault := true })
  | none => (none, r.2)

def sqlite_version (E : Engine W) (s : SQLL W) : Cell × SQLL W :=
  sql_value E "SELECT sqlite_version()".toList [] s

/-! ## Sequences of public operations -/

/-- The public member functions that change the session. A sequence of them is run to its
end even when one of them sets `undefined`, after which the program may no longer be
running: the sequences cover every execution of the program and more. -/
inductive Op where
  | sql_prepare (sql : CStr) (ap : List CStr)
  | sql_do (sql : CStr) (ap : List CStr)
  | sql_value (sql : CStr) (ap : List CStr)
  | fetch_row
  | sql_column_names
  | sqlite_version
  | reset_stmt
  | reset
  | error (str : Option CStr)
  | error_msg (str : Option CStr)
  deriving DecidableEq

def Op.run (E : Engine W) (op : Op) (s : SQLL W) : SQLL W :=
  match op with
  | Op.sql_prepare text ap => (sql.sql_prepare E text ap s).2
  | Op.sql_do text ap => (sql.sql_do E text ap s).2
  | Op.sql_value text ap => (sql.sql_value E text ap s).2
  | Op.fetch_row => (sql.fetch_row E s).2
  | Op.sql_column_names => (sql.sql_column_names E s).2
  | Op.sqlite_version => (sql.sqlite_version E s).2
  | Op.reset_stmt => sql.reset_stmt E s
  | Op.reset => sql.reset E s
  | Op.error str => sql.error E str s
  | Op.error_msg str => sql.error_msg E str s

def runOps (E : Engine W) (ops : List Op) (s : SQLL W) : SQLL W :=
  ops.foldl (fun st op => op.run E st) s

/-- Number of statements the engine has handed out and that were not finalized since. -/
def created (log : List Call) : Nat :=
  (log.filter (fun c => match c with
    | Call.prepare_v2 _ _ _ (some _) => true
    | _ => false)).length

def finalized (log : List Call) : Nat :=
  (log.filter (fun c => match c with
    | Call.finalize _ => true
    | _ => false)).length

def closed (log : List Call) : Nat :=
  (log.filter (fun c => match c with
    | Call.close _ => true
    | _ => false)).length

def stepped (log : List Call) : Nat :=
  (log.filter (fun c => match c with
    | Call.step _ _ => true
    | _ => false)).length

/-! ## A small concrete engine, used to run the model on examples -/

/-- A toy engine. Its state is the number of rows still to be produced. A null connection is
refused with `SQLITE_MISUSE`; a text starting with `!` is a syntax error that leaves handle 9
behind; an empty text compiles to no statement; any other text compiles to the handle
`100 + 10 * columns + placeholders`, where a text starting with `S` has one column per comma
plus one and produces one row. -/
def toyEngine : Engine Nat where
  prepare_v2 := fun w d sql =>
    match d with
    | none => (21, none, w)
    | some _ =>
      match sql with
      | [] => (0, none, w)
      | c :: _ =>
        if c = '!' then (1, some 9, w)
        else if c = 'S' then (0, some (100 + 10 * (sql.count ',' + 1) + sql.count '?'), 1)
        else (0, some (100 + sql.count '?'), 0)
  column_count := fun h => (h / 10) % 10
  bind_parameter_count := fun h => h % 10
  bind_text := fun w _ _ _ => w
  step := fun w st =>
    match st with
    | none => (21, w)
    | some _ => if 0 < w then (100, w - 1) else (101, 0)
  column_text := fun _ _ index => some [Char.ofNat (48 + index)]
  column_name := fun _ _ index => some [Char.ofNat (97 + index)]
  finalize := fun _ _ => 0
  close := fun w _ => w
  changes := fun _ _ => 1
  errmsg := fun _ _ => "syntax error".toList

/-- A session whose connection handle is 1, as after a successful open. -/
def opened : SQLL Nat := { SQLL.new (some "test.db".toList) 0 with _db := some 1 }


/-! ## Invariants of the session -/

/-- The session holds a statement exactly when one statement handed out by the engine has
not been finalized, and no other statement is outstanding. -/
def Balanced (s : SQLL W) : Prop :=
  created s.log = finalized s.log + (if s._stmt.isSome then 1 else 0)

/-- The column count is that of the held statement, each allocated buffer has exactly that
many cells (and is allocated only for a positive count), and no store went out of bounds. -/
def Sized (E : Engine W) (s : SQLL W) : Prop :=
  s.fault = false ∧
  s._num_sql_cols = sqlite3_column_count E s._stmt ∧
  (∀ b, s._row = some b → b.length = s._num_sql_cols ∧ 0 < s._num_sql_cols) ∧
  (∀ b, s._sql_colnames = some b → b.length = s._num_sql_cols ∧ 0 < s._num_sql_cols)

/-- The state in which `fetch_row` runs its copy loop: after the step and the allocation of
the row buffer. -/
def fetch_row_alloc (E : Engine W) (s : SQLL W) : SQLL W :=
  if (sqlite3_step E s).2._num_sql_cols ≠ 0 ∧ (sqlite3_step E s).2._row = none then
    { (sqlite3_step E s).2 with
      _row := some (List.replicate (sqlite3_step E s).2._num_sql_cols none) }
  else (sqlite3_step E s).2

/-- The state in which `sql_column_names` runs its copy loop: after the allocation of the
name buffer. -/
def sql_column_names_alloc (s : SQLL W) : SQLL W :=
  if s._num_sql_cols ≠ 0 ∧ s._sql_colnames = none then
    { s with _sql_colnames := some (List.replicate s._num_sql_cols none) }
  else s

/-- The binds that give the placeholders `p`, `p + 1`, … the supplied values, in order. -/
def supplied_binds (st : Option Handle) : Nat → List CStr → List Call
  | _, [] => []
  | p, a :: rest => Call.bind_text st p (some a) :: supplied_binds st (p + 1) rest

/-- The binds of placeholders `p`, …, `p + n - 1` with a value that was not supplied. -/
def unsupplied_binds (st : Option Handle) (p n : Nat) : List Call :=
  (List.range n).map (fun j => Call.bind_text st (p + j) none)

theorem num_params_loop_spec (sql : CStr) (len : Nat) (hlen : len < 2147483648)
    (hle : len ≤ sql.length) :
    ∀ (k i : Nat) (count : Nat), i + k = len → count ≤ i →
      num_params_loop sql len (k + 1) (i : Int) (count : Int)
        = some ((count + ((sql.take len).drop i).count '?' : Nat) : Int) := by
  intro k
  induction k with
  | zero =>
    intro i count hik hc
    have : i = len := by omega
    subst this
    have hnil : (sql.take i).drop i = [] := List.drop_eq_nil_of_le (by simp)
    have hsz : toSizeT (i : Int) = i := by
      unfold toSizeT; omega
    simp [num_params_loop, hsz, hnil]
  | succ k ih =>
    intro i count hik hc
    have hi : i < len := by omega
    have hsz : toSizeT (i : Int) = i := by
      unfold toSizeT; omega
    have hi1 : toInt32 ((i : Int) + 1) = ((i + 1 : Nat) : Int) := by
      unfold toInt32; push_cast; omega
    have hc1 : toInt32 ((count : Int) + 1) = ((count + 1 : Nat) : Int) := by
      unfold toInt32; push_cast; omega
    have hd : (sql.take len).drop i = sql.get ⟨i, by omega⟩ :: (sql.take len).drop (i + 1) := by
      rw [List.drop_eq_getElem_cons (by simp; omega)]
      simp
    rw [num_params_loop, hsz, if_pos hi, hi1, hd]
    have hg : sql.get? i = some (sql.get ⟨i, by omega⟩) := by
      simp [List.get?_eq_get]
    rw [hg]
    by_cases hq : sql.get ⟨i, by omega⟩ = '?'
    · rw [if_pos (by rw [hq]), hc1, ih (i + 1) (count + 1) (by omega) (by omega)]
      rw [hq, List.count_cons_self]
      have : count + 1 + List.count '?' (List.drop (i + 1) (List.take len sql))
          = count + (List.count '?' (List.drop (i + 1) (List.take len sql)) + 1) := by omega
      rw [this]
    · rw [if_neg (by simpa using hq), ih (i + 1) count (by omega) (by omega)]
      rw [List.count_cons_of_ne (fun h => hq h.symm)]


/-! ## Basic facts about the model -/

section lemmas

variable {W : Type} (E : Engine W)

theorem created_append (l₁ l₂ : List Call) : created (l₁ ++ l₂) = created l₁ + created l₂ := by
  simp [created, List.filter_append]

theorem finalized_append (l₁ l₂ : List Call) :
    finalized (l₁ ++ l₂) = finalized l₁ + finalized l₂ := by
  simp [finalized, List.filter_append]

theorem closed_append (l₁ l₂ : List Call) : closed (l₁ ++ l₂) = closed l₁ + closed l₂ := by
  simp [closed, List.filter_append]

theorem stepped_append (l₁ l₂ : List Call) : stepped (l₁ ++ l₂) = stepped l₁ + stepped l₂ := by
  simp [stepped, List.filter_append]

/-- The effect of `reset_stmt` in one piece. -/
theorem reset_stmt_eq (s : SQLL W) :
    reset_stmt E s =
      { s with
        _num_sql_cols := 0, _stmt := none, _row := none, _sql_colnames := none,
        world := (match s._stmt with
          | some h => E.finalize s.world h
          | none => s.world),
        log := s.log ++ (match s._stmt with
          | some h => [Call.finalize h]
          | none => []) } := by
  obtain ⟨fn, d, st, n, cn, rw, w, lg, f, u⟩ := s
  cases st <;> cases cn <;> cases rw <;> simp [reset_stmt]

theorem error_msg_eq (str : Option CStr) (s : SQLL W) :
    error_msg E str s = { s with log := (error_msg E str s).log } := by
  obtain ⟨fn, d, st, n, cn, rw, w, lg, f, u⟩ := s
  cases str <;> cases d <;> simp [error_msg, printf]

theorem error_msg_log (str : Option CStr) (s : SQLL W) :
    ∃ new, (error_msg E str s).log = s.log ++ new ∧
      created new = 0 ∧ finalized new = 0 ∧ closed new = 0 ∧ stepped new = 0 := by
  obtain ⟨fn, d, st, n, cn, rw, w, lg, f, u⟩ := s
  cases str <;> cases d <;> simp [error_msg, printf] <;> exact ⟨rfl, rfl, rfl, rfl⟩

end lemmas

section loops

variable {W : Type} (E : Engine W)

theorem sqlite3_bind_text_eq (s : SQLL W) (n : Nat) (v : Option CStr) :
    sqlite3_bind_text E s n v =
      { s with world := (sqlite3_bind_text E s n v).world,
               log := s.log ++ [Call.bind_text s._stmt n v],
               undefined := (sqlite3_bind_text E s n v).undefined } := by
  obtain ⟨fn, d, st, k, cn, rw, w, lg, f, u⟩ := s
  cases v <;> cases st <;> simp [sqlite3_bind_text]

theorem sqlite3_changes_eq (s : SQLL W) :
    (sqlite3_changes E s).2 =
      { s with log := s.log ++ [Call.changes s._db],
               undefined := (sqlite3_changes E s).2.undefined } := by
  obtain ⟨fn, d, st, k, cn, rw, w, lg, f, u⟩ := s
  cases d <;> simp [sqlite3_changes]

theorem va_arg_fst (ap : List CStr) : (va_arg ap).1 = ap.get? 0 := by
  cases ap <;> rfl

theorem va_arg_snd (ap : List CStr) : (va_arg ap).2 = ap.drop 1 := by
  cases ap <;> rfl

/-- The bind loop performs one bind per iteration, numbered from `p` upwards, the `i`-th with
the `i`-th remaining argument, and touches nothing but the engine state and the log. -/
theorem bind_loop_eq (N : Nat) : ∀ (fuel p : Nat) (ap : List CStr) (s : SQLL W),
    p + fuel ≤ N + 1 →
    bind_loop E N fuel p ap s =
      { s with world := (bind_loop E N fuel p ap s).world,
               log := s.log ++ (List.range fuel).map
                 (fun i => Call.bind_text s._stmt (p + i) (ap.get? i)),
               undefined := (bind_loop E N fuel p ap s).undefined } := by
  intro fuel
  induction fuel with
  | zero => intro p ap s _; simp [bind_loop]
  | succ fuel ih =>
    intro p ap s hp
    have hle : p ≤ N := by omega
    rw [bind_loop, if_pos hle]
    simp only []
    rw [ih (p + 1) (va_arg ap).2 (sqlite3_bind_text E s p (va_arg ap).1) (by omega)]
    rw [sqlite3_bind_text_eq]
    simp only [List.range_succ_eq_map, List.map_cons, List.map_map, va_arg_fst, va_arg_snd]
    congr 1
    simp only [List.append_assoc, List.singleton_append, Nat.add_zero]
    congr 2
    apply List.map_congr_left
    intro i _
    simp [Function.comp, Nat.add_assoc, Nat.add_comm 1 i, List.getElem?_drop]

theorem map_bind_quiet (st : Option Handle) (f : Nat → Nat) (g : Nat → Option CStr) (l : List Nat) :
    created (l.map (fun i => Call.bind_text st (f i) (g i))) = 0 ∧
    finalized (l.map (fun i => Call.bind_text st (f i) (g i))) = 0 ∧
    closed (l.map (fun i => Call.bind_text st (f i) (g i))) = 0 ∧
    stepped (l.map (fun i => Call.bind_text st (f i) (g i))) = 0 := by
  induction l with
  | nil => exact ⟨rfl, rfl, rfl, rfl⟩
  | cons a l ih =>
    simp only [List.map_cons]
    obtain ⟨h1, h2, h3, h4⟩ := ih
    refine ⟨?_, ?_, ?_, ?_⟩
    · rw [← List.singleton_append, created_append, h1]; rfl
    · rw [← List.singleton_append, finalized_append, h2]; rfl
    · rw [← List.singleton_append, closed_append, h3]; rfl
    · rw [← List.singleton_append, stepped_append, h4]; rfl

end loops

section buffers

variable {W : Type} (E : Engine W)

/-- The row loop changes only the row buffer and the fault flag. -/
theorem row_loop_frame : ∀ (fuel index : Nat) (s : SQLL W),
    row_loop E fuel index s =
      { s with _row := (row_loop E fuel index s)._row,
               fault := (row_loop E fuel index s).fault } := by
  intro fuel
  induction fuel with
  | zero => intro index s; simp [row_loop]
  | succ fuel ih =>
    intro index s
    rw [row_loop]
    split
    · simp only []
      rw [ih]
    · rfl

theorem colnames_loop_frame : ∀ (fuel index : Nat) (s : SQLL W),
    colnames_loop E fuel index s =
      { s with _sql_colnames := (colnames_loop E fuel index s)._sql_colnames,
               fault := (colnames_loop E fuel index s).fault } := by
  intro fuel
  induction fuel with
  | zero => intro index s; simp [colnames_loop]
  | succ fuel ih =>
    intro index s
    rw [colnames_loop]
    split
    · simp only []
      rw [ih]
    · rfl

/-- On a row buffer of exactly `_num_sql_cols` cells every store of the row loop is in
bounds: the buffer keeps its length and the fault flag is not raised. -/
theorem row_loop_ok : ∀ (fuel index : Nat) (s : SQLL W) (b : List Cell),
    s._row = some b → b.length = s._num_sql_cols →
    ∃ b', b'.length = b.length ∧ (row_loop E fuel index s)._row = some b' ∧
      (row_loop E fuel index s).fault = s.fault := by
  intro fuel
  induction fuel with
  | zero => intro index s b hb _; exact ⟨b, rfl, by simp [row_loop, hb], by simp [row_loop]⟩
  | succ fuel ih =>
    intro index s b hb hlen
    rw [row_loop]
    split
    · rename_i hlt
      have hin : index < b.length := by omega
      simp only [hb, store, if_pos hin, Bool.or_false]
      obtain ⟨b', h1, h2, h3⟩ := ih (index + 1)
        { s with _row := some (b.set index (sqlite3_column_text E s index)), fault := s.fault }
        (b.set index (sqlite3_column_text E s index)) rfl (by simpa using hlen)
      exact ⟨b', by simpa using h1, h2, h3⟩
    · exact ⟨b, rfl, hb, rfl⟩

theorem colnames_loop_ok : ∀ (fuel index : Nat) (s : SQLL W) (b : List Cell),
    s._sql_colnames = some b → b.length = s._num_sql_cols →
    ∃ b', b'.length = b.length ∧ (colnames_loop E fuel index s)._sql_colnames = some b' ∧
      (colnames_loop E fuel index s).fault = s.fault := by
  intro fuel
  induction fuel with
  | zero =>
    intro index s b hb _
    exact ⟨b, rfl, by simp [colnames_loop, hb], by simp [colnames_loop]⟩
  | succ fuel ih =>
    intro index s b hb hlen
    rw [colnames_loop]
    split
    · rename_i hlt
      have hin : index < b.length := by omega
      simp only [hb, store, if_pos hin, Bool.or_false]
      obtain ⟨b', h1, h2, h3⟩ := ih (index + 1)
        { s with _sql_colnames := some (b.set index (sqlite3_column_name E s index)),
                 fault := s.fault }
        (b.set index (sqlite3_column_name E s index)) rfl (by simpa using hlen)
      exact ⟨b', by simpa using h1, h2, h3⟩
    · exact ⟨b, rfl, hb, rfl⟩

end buffers

section prepare

variable {W : Type} (E : Engine W)

theorem bind_loop_zero (fuel p : Nat) (hp : 0 < p) (ap : List CStr) (s : SQLL W) :
    bind_loop E 0 fuel p ap s = s := by
  cases fuel with
  | zero => rfl
  | succ fuel => rw [bind_loop, if_neg (by omega)]

/-- What `_sql_prepare` does when the engine rejects the text. -/
theorem _sql_prepare_fail (sql : CStr) (ap : List CStr) (s : SQLL W)
    (hrc : (E.prepare_v2 (reset_stmt E s).world s._db sql).1 ≠ 0) :
    _sql_prepare E sql ap s =
      (0, reset_stmt E (error_msg E (some "sql_prepare".toList)
        { reset_stmt E s with
          _stmt := (E.prepare_v2 (reset_stmt E s).world s._db sql).2.1,
          world := (E.prepare_v2 (reset_stmt E s).world s._db sql).2.2,
          log := (reset_stmt E s).log ++
            [Call.prepare_v2 s._db sql (E.prepare_v2 (reset_stmt E s).world s._db sql).1
              (E.prepare_v2 (reset_stmt E s).world s._db sql).2.1] })) := by
  have hdb : (reset_stmt E s)._db = s._db := by rw [reset_stmt_eq]
  unfold _sql_prepare
  simp only [hdb]
  rw [if_pos hrc]

/-- What `_sql_prepare` does when the engine accepts the text. -/
theorem _sql_prepare_ok (sql : CStr) (ap : List CStr) (s : SQLL W)
    (hrc : (E.prepare_v2 (reset_stmt E s).world s._db sql).1 = 0) :
    _sql_prepare E sql ap s =
      (sqlite3_bind_parameter_count E (E.prepare_v2 (reset_stmt E s).world s._db sql).2.1,
       bind_loop E
        (sqlite3_bind_parameter_count E (E.prepare_v2 (reset_stmt E s).world s._db sql).2.1)
        (sqlite3_bind_parameter_count E (E.prepare_v2 (reset_stmt E s).world s._db sql).2.1)
        1 ap
        { reset_stmt E s with
          _stmt := (E.prepare_v2 (reset_stmt E s).world s._db sql).2.1,
          world := (E.prepare_v2 (reset_stmt E s).world s._db sql).2.2,
          log := (reset_stmt E s).log ++
            [Call.prepare_v2 s._db sql (E.prepare_v2 (reset_stmt E s).world s._db sql).1
              (E.prepare_v2 (reset_stmt E s).world s._db sql).2.1],
          _num_sql_cols :=
            sqlite3_column_count E (E.prepare_v2 (reset_stmt E s).world s._db sql).2.1 }) := by
  have hdb : (reset_stmt E s)._db = s._db := by rw [reset_stmt_eq]
  unfold _sql_prepare
  simp only [hdb]
  rw [if_neg (by simpa using hrc)]
  split
  · rfl
  · rename_i h0
    have h0' : sqlite3_bind_parameter_count E
        (E.prepare_v2 (reset_stmt E s).world s._db sql).2.1 = 0 := by simpa using h0
    simp only [h0']
    rw [bind_loop_zero E 0 1 (by omega)]

end prepare

section fetch

variable {W : Type} (E : Engine W)

theorem fetch_row_none (s : SQLL W) (hs : s._stmt = none) :
    fetch_row E s = (none, reset_stmt E s) := by
  simp only [fetch_row, hs]

theorem fetch_row_done (s : SQLL W) (x : Handle) (hs : s._stmt = some x)
    (hrc : (sqlite3_step E s).1 ≠ SQLITE_ROW) :
    fetch_row E s = (none, reset_stmt E (sqlite3_step E s).2) := by
  simp only [fetch_row, hs]
  rw [if_pos (by simpa [sqlite3_step, hs] using hrc)]

theorem fetch_row_row (s : SQLL W) (x : Handle) (hs : s._stmt = some x)
    (hrc : (sqlite3_step E s).1 = SQLITE_ROW) :
    fetch_row E s =
      ((row_loop E (fetch_row_alloc E s)._num_sql_cols 0 (fetch_row_alloc E s))._row,
       row_loop E (fetch_row_alloc E s)._num_sql_cols 0 (fetch_row_alloc E s)) := by
  simp only [fetch_row, hs]
  rw [if_neg (by simpa [sqlite3_step, hs] using hrc)]
  simp [sqlite3_step, hs, fetch_row_alloc]

theorem sql_column_names_none (s : SQLL W) (hs : s._stmt = none) :
    sql_column_names E s = (none, reset_stmt E s) := by
  simp only [sql_column_names, hs]

theorem sql_column_names_some (s : SQLL W) (x : Handle) (hs : s._stmt = some x) :
    sql_column_names E s =
      ((colnames_loop E (sql_column_names_alloc s)._num_sql_cols 0
          (sql_column_names_alloc s))._sql_colnames,
       colnames_loop E (sql_column_names_alloc s)._num_sql_cols 0 (sql_column_names_alloc s)) := by
  simp only [sql_column_names, hs, sql_column_names_alloc]

theorem fetch_row_alloc_frame (s : SQLL W) :
    fetch_row_alloc E s = { (sqlite3_step E s).2 with _row := (fetch_row_alloc E s)._row } := by
  unfold fetch_row_alloc
  split <;> rfl

theorem sql_column_names_alloc_frame (s : SQLL W) :
    sql_column_names_alloc s =
      { s with _sql_colnames := (sql_column_names_alloc s)._sql_colnames } := by
  unfold sql_column_names_alloc
  split <;> rfl

end fetch

section balanced

variable {W : Type} (E : Engine W)

theorem bal_reset_stmt (s : SQLL W) (h : Balanced s) : Balanced (reset_stmt E s) := by
  rw [reset_stmt_eq]
  unfold Balanced at *
  cases hs : s._stmt with
  | none => simpa [hs] using h
  | some x =>
    simp only [hs, Option.isSome_some, if_true] at h
    simp only [created_append, finalized_append, h]
    simp [created, finalized]

theorem bal_error_msg (str : Option CStr) (s : SQLL W) (h : Balanced s) :
    Balanced (error_msg E str s) := by
  obtain ⟨new, hl, h1, h2, _, _⟩ := error_msg_log E str s
  rw [error_msg_eq]
  unfold Balanced at *
  simp only [hl, created_append, finalized_append, h1, h2, h]
  omega

theorem bal_step (s : SQLL W) (h : Balanced s) : Balanced (sqlite3_step E s).2 := by
  unfold Balanced at *
  simp only [sqlite3_step, created_append, finalized_append, h]
  simp [created, finalized]

theorem bal_changes (s : SQLL W) (h : Balanced s) : Balanced (sqlite3_changes E s).2 := by
  rw [sqlite3_changes_eq]
  unfold Balanced at *
  simp only [created_append, finalized_append, h]
  simp [created, finalized]

theorem bal_reset (s : SQLL W) (h : Balanced s) : Balanced (reset E s) := by
  have h' := bal_reset_stmt E s h
  unfold reset
  simp only []
  cases hd : (reset_stmt E s)._db with
  | none => simpa [hd] using h'
  | some d =>
    unfold Balanced at *
    simp only [created_append, finalized_append, h']
    simp [created, finalized]

theorem bal_prepared (s : SQLL W) (h : Balanced s) (sql : CStr) (rc : Int)
    (out : Option Handle) (w : W) :
    Balanced { reset_stmt E s with
      _stmt := out, world := w,
      log := (reset_stmt E s).log ++ [Call.prepare_v2 s._db sql rc out] } := by
  have h' := bal_reset_stmt E s h
  have hn : (reset_stmt E s)._stmt = none := by rw [reset_stmt_eq]
  unfold Balanced at *
  simp only [hn, Option.isSome_none] at h'
  simp only [created_append, finalized_append, h']
  cases out <;> simp [created, finalized]

theorem bal__sql_prepare (sql : CStr) (ap : List CStr) (s : SQLL W) (h : Balanced s) :
    Balanced (_sql_prepare E sql ap s).2 := by
  by_cases hrc : (E.prepare_v2 (reset_stmt E s).world s._db sql).1 = 0
  · rw [_sql_prepare_ok E sql ap s hrc]
    simp only []
    rw [bind_loop_eq E _ _ 1 ap _ (by omega)]
    have hb := bal_prepared E s h sql (E.prepare_v2 (reset_stmt E s).world s._db sql).1
      (E.prepare_v2 (reset_stmt E s).world s._db sql).2.1
      (E.prepare_v2 (reset_stmt E s).world s._db sql).2.2
    unfold Balanced at *
    simp only [] at hb ⊢
    rw [created_append, finalized_append, hb]
    obtain ⟨h1, h2, _, _⟩ := map_bind_quiet
      (E.prepare_v2 (reset_stmt E s).world s._db sql).2.1 (fun i => 1 + i)
      (fun i => ap.get? i)
      (List.range (sqlite3_bind_parameter_count E
        (E.prepare_v2 (reset_stmt E s).world s._db sql).2.1))
    rw [h1, h2]
    omega
  · rw [_sql_prepare_fail E sql ap s hrc]
    exact bal_reset_stmt E _ (bal_error_msg E _ _ (bal_prepared E s h sql _ _ _))

theorem bal_fetch_row (s : SQLL W) (h : Balanced s) : Balanced (fetch_row E s).2 := by
  cases hs : s._stmt with
  | none => rw [fetch_row_none E s hs]; exact bal_reset_stmt E s h
  | some x =>
    by_cases hrow : (sqlite3_step E s).1 = SQLITE_ROW
    · rw [fetch_row_row E s x hs hrow]
      simp only []
      rw [row_loop_frame, fetch_row_alloc_frame]
      exact bal_step E s h
    · rw [fetch_row_done E s x hs hrow]
      exact bal_reset_stmt E _ (bal_step E s h)

theorem bal_sql_column_names (s : SQLL W) (h : Balanced s) :
    Balanced (sql_column_names E s).2 := by
  cases hs : s._stmt with
  | none => rw [sql_column_names_none E s hs]; exact bal_reset_stmt E s h
  | some x =>
    rw [sql_column_names_some E s x hs]
    simp only []
    rw [colnames_loop_frame, sql_column_names_alloc_frame]
    exact h

theorem bal_sql_value (sql : CStr) (ap : List CStr) (s : SQLL W) (h : Balanced s) :
    Balanced (sql_value E sql ap s).2 := by
  have hf := bal_fetch_row E _ (bal__sql_prepare E sql ap s h)
  unfold sql_value
  simp only []
  split
  · split
    · exact hf
    · exact hf
  · exact hf

theorem bal_run (op : Op) (s : SQLL W) (h : Balanced s) : Balanced (op.run E s) := by
  cases op with
  | sql_prepare text ap => exact bal__sql_prepare E text ap s h
  | sql_do text ap =>
    exact bal_changes E _ (bal_reset_stmt E _ (bal_step E _ (bal__sql_prepare E text ap s h)))
  | sql_value text ap => exact bal_sql_value E text ap s h
  | fetch_row => exact bal_fetch_row E s h
  | sql_column_names => exact bal_sql_column_names E s h
  | sqlite_version => exact bal_sql_value E _ _ s h
  | reset_stmt => exact bal_reset_stmt E s h
  | reset => exact bal_reset E s h
  | error str => exact bal_reset E _ (bal_error_msg E str s h)
  | error_msg str => exact bal_error_msg E str s h

theorem bal_runOps (ops : List Op) : ∀ (s : SQLL W), Balanced s → Balanced (runOps E ops s) := by
  induction ops with
  | nil => intro s h; exact h
  | cons op ops ih => intro s h; exact ih _ (bal_run E op s h)

end balanced

section sized

variable {W : Type} (E : Engine W)

theorem sized_reset_stmt (s : SQLL W) (h : s.fault = false) : Sized E (reset_stmt E s) := by
  rw [reset_stmt_eq]
  exact ⟨h, rfl, fun b hb => by simp at hb, fun b hb => by simp at hb⟩

theorem sized_error_msg (str : Option CStr) (s : SQLL W) (h : Sized E s) :
    Sized E (error_msg E str s) := by
  rw [error_msg_eq]
  exact h

theorem sized_step (s : SQLL W) (h : Sized E s) : Sized E (sqlite3_step E s).2 := h

theorem sized_changes (s : SQLL W) (h : Sized E s) : Sized E (sqlite3_changes E s).2 := by
  rw [sqlite3_changes_eq]
  exact h

theorem sized_reset (s : SQLL W) (h : s.fault = false) : Sized E (reset E s) := by
  have h' := sized_reset_stmt E s h
  unfold reset
  simp only []
  split
  · exact h'
  · exact h'

theorem sized__sql_prepare (sql : CStr) (ap : List CStr) (s : SQLL W) (h : s.fault = false) :
    Sized E (_sql_prepare E sql ap s).2 := by
  by_cases hrc : (E.prepare_v2 (reset_stmt E s).world s._db sql).1 = 0
  · rw [_sql_prepare_ok E sql ap s hrc]
    simp only []
    rw [bind_loop_eq E _ _ 1 ap _ (by omega), reset_stmt_eq]
    exact ⟨h, rfl, fun b hb => by simp at hb, fun b hb => by simp at hb⟩
  · rw [_sql_prepare_fail E sql ap s hrc]
    apply sized_reset_stmt
    rw [error_msg_eq, reset_stmt_eq]
    exact h

theorem sized_fetch_row_alloc (s : SQLL W) (h : Sized E s) : Sized E (fetch_row_alloc E s) := by
  obtain ⟨h1, h2, h3, h4⟩ := h
  unfold fetch_row_alloc
  split
  · rename_i hc
    refine ⟨h1, h2, ?_, h4⟩
    intro b hb
    simp only [Option.some.injEq] at hb
    subst hb
    exact ⟨by simp, Nat.pos_of_ne_zero hc.1⟩
  · exact ⟨h1, h2, h3, h4⟩

theorem fetch_row_alloc_none (s : SQLL W) (h : (fetch_row_alloc E s)._row = none) :
    (fetch_row_alloc E s)._num_sql_cols = 0 := by
  unfold fetch_row_alloc at h ⊢
  split
  · rename_i hc
    rw [if_pos hc] at h
    simp at h
  · rename_i hc
    rw [if_neg hc] at h
    by_contra h0
    exact hc ⟨h0, h⟩

theorem sized_row_loop (a : SQLL W) (h : Sized E a) (hn : a._row = none → a._num_sql_cols = 0) :
    Sized E (row_loop E a._num_sql_cols 0 a) := by
  obtain ⟨h1, h2, h3, h4⟩ := h
  cases hr : a._row with
  | none =>
    rw [hn hr]
    exact ⟨h1, h2, h3, h4⟩
  | some b =>
    obtain ⟨b', hl, hrow, hf⟩ := row_loop_ok E a._num_sql_cols 0 a b hr (h3 b hr).1
    rw [row_loop_frame]
    refine ⟨hf.trans h1, h2, ?_, h4⟩
    intro c hc
    simp only [hrow, Option.some.injEq] at hc
    subst hc
    exact ⟨hl.trans (h3 b hr).1, (h3 b hr).2⟩

theorem sized_fetch_row (s : SQLL W) (h : Sized E s) : Sized E (fetch_row E s).2 := by
  cases hs : s._stmt with
  | none => rw [fetch_row_none E s hs]; exact sized_reset_stmt E s h.1
  | some x =>
    by_cases hrow : (sqlite3_step E s).1 = SQLITE_ROW
    · rw [fetch_row_row E s x hs hrow]
      exact sized_row_loop E _ (sized_fetch_row_alloc E s h) (fetch_row_alloc_none E s)
    · rw [fetch_row_done E s x hs hrow]
      exact sized_reset_stmt E _ h.1

theorem sized_sql_column_names_alloc (s : SQLL W) (h : Sized E s) :
    Sized E (sql_column_names_alloc s) := by
  obtain ⟨h1, h2, h3, h4⟩ := h
  unfold sql_column_names_alloc
  split
  · rename_i hc
    refine ⟨h1, h2, h3, ?_⟩
    intro b hb
    simp only [Option.some.injEq] at hb
    subst hb
    exact ⟨by simp, Nat.pos_of_ne_zero hc.1⟩
  · exact ⟨h1, h2, h3, h4⟩

theorem sql_column_names_alloc_none (s : SQLL W)
    (h : (sql_column_names_alloc s)._sql_colnames = none) :
    (sql_column_names_alloc s)._num_sql_cols = 0 := by
  unfold sql_column_names_alloc at h ⊢
  split
  · rename_i hc
    rw [if_pos hc] at h
    simp at h
  · rename_i hc
    rw [if_neg hc] at h
    by_contra h0
    exact hc ⟨h0, h⟩

theorem sized_colnames_loop (a : SQLL W) (h : Sized E a)
    (hn : a._sql_colnames = none → a._num_sql_cols = 0) :
    Sized E (colnames_loop E a._num_sql_cols 0 a) := by
  obtain ⟨h1, h2, h3, h4⟩ := h
  cases hr : a._sql_colnames with
  | none =>
    rw [hn hr]
    exact ⟨h1, h2, h3, h4⟩
  | some b =>
    obtain ⟨b', hl, hcol, hf⟩ := colnames_loop_ok E a._num_sql_cols 0 a b hr (h4 b hr).1
    rw [colnames_loop_frame]
    refine ⟨hf.trans h1, h2, h3, ?_⟩
    intro c hc
    simp only [hcol, Option.some.injEq] at hc
    subst hc
    exact ⟨hl.trans (h4 b hr).1, (h4 b hr).2⟩

theorem sized_sql_column_names (s : SQLL W) (h : Sized E s) :
    Sized E (sql_column_names E s).2 := by
  cases hs : s._stmt with
  | none => rw [sql_column_names_none E s hs]; exact sized_reset_stmt E s h.1
  | some x =>
    rw [sql_column_names_some E s x hs]
    exact sized_colnames_loop E _ (sized_sql_column_names_alloc E s h)
      (sql_column_names_alloc_none s)

/-- A row returned by `fetch_row` in a well-sized session has at least one cell. -/
theorem fetch_row_nonempty (s : SQLL W) (h : Sized E s) (row : List Cell)
    (hr : (fetch_row E s).1 = some row) : row ≠ [] := by
  have hsz := sized_fetch_row E s h
  cases hs : s._stmt with
  | none => rw [fetch_row_none E s hs] at hr; simp at hr
  | some x =>
    by_cases hrow : (sqlite3_step E s).1 = SQLITE_ROW
    · rw [fetch_row_row E s x hs hrow] at hr hsz
      simp only [] at hr hsz
      obtain ⟨hlen, hpos⟩ := hsz.2.2.1 row hr
      intro hnil
      rw [hnil] at hlen
      simp at hlen
      omega
    · rw [fetch_row_done E s x hs hrow] at hr; simp at hr

theorem sized_sql_value (sql : CStr) (ap : List CStr) (s : SQLL W) (h : s.fault = false) :
    Sized E (sql_value E sql ap s).2 := by
  have hp := sized__sql_prepare E sql ap s h
  have hf := sized_fetch_row E _ hp
  unfold sql_value
  simp only []
  split
  · rename_i row hrow
    split
    · exact hf
    · exact absurd rfl (fetch_row_nonempty E _ hp _ hrow)
  · exact hf

theorem sized_run (op : Op) (s : SQLL W) (h : Sized E s) : Sized E (op.run E s) := by
  cases op with
  | sql_prepare text ap => exact sized__sql_prepare E text ap s h.1
  | sql_do text ap =>
    exact sized_changes E _ (sized_reset_stmt E _ (sized__sql_prepare E text ap s h.1).1)
  | sql_value text ap => exact sized_sql_value E text ap s h.1
  | fetch_row => exact sized_fetch_row E s h
  | sql_column_names => exact sized_sql_column_names E s h
  | sqlite_version => exact sized_sql_value E _ _ s h.1
  | reset_stmt => exact sized_reset_stmt E s h.1
  | reset => exact sized_reset E s h.1
  | error str => exact sized_reset E _ (sized_error_msg E str s h).1
  | error_msg str => exact sized_error_msg E str s h

theorem sized_runOps (ops : List Op) : ∀ (s : SQLL W), Sized E s → Sized E (runOps E ops s) := by
  induction ops with
  | nil => intro s h; exact h
  | cons op ops ih => intro s h; exact ih _ (sized_run E op s h)

end sized

section frames

variable {W : Type} (E : Engine W)

theorem binds_split (st : Option Handle) : ∀ (ap : List CStr) (p n : Nat), ap.length ≤ n →
    (List.range n).map (fun i => Call.bind_text st (p + i) (ap.get? i)) =
      supplied_binds st p ap ++ unsupplied_binds st (p + ap.length) (n - ap.length) := by
  intro ap
  induction ap with
  | nil =>
    intro p n _
    simp [supplied_binds, unsupplied_binds]
  | cons a rest ih =>
    intro p n hn
    obtain ⟨m, rfl⟩ : ∃ m, n = m + 1 := ⟨n - 1, by simp at hn; omega⟩
    have hm : rest.length ≤ m := by simp at hn; omega
    rw [List.range_succ_eq_map]
    simp only [List.map_cons, List.map_map, supplied_binds, List.cons_append, Nat.add_zero,
      List.get?_cons_zero, List.length_cons]
    congr 1
    have := ih (p + 1) m hm
    have e1 : m + 1 - (rest.length + 1) = m - rest.length := by omega
    have e2 : p + (rest.length + 1) = p + 1 + rest.length := by omega
    rw [e1, e2, ← this]
    apply List.map_congr_left
    intro i _
    simp [Function.comp, Nat.add_assoc, Nat.add_comm 1 i]

theorem _sql_prepare_db (sql : CStr) (ap : List CStr) (s : SQLL W) :
    (_sql_prepare E sql ap s).2._db = s._db := by
  by_cases hrc : (E.prepare_v2 (reset_stmt E s).world s._db sql).1 = 0
  · rw [_sql_prepare_ok E sql ap s hrc]
    simp only []
    rw [bind_loop_eq E _ _ 1 ap _ (by omega), reset_stmt_eq]
  · rw [_sql_prepare_fail E sql ap s hrc, reset_stmt_eq, error_msg_eq, reset_stmt_eq]

theorem fetch_row_db (s : SQLL W) : (fetch_row E s).2._db = s._db := by
  cases hs : s._stmt with
  | none => rw [fetch_row_none E s hs, reset_stmt_eq]
  | some x =>
    by_cases hrow : (sqlite3_step E s).1 = SQLITE_ROW
    · rw [fetch_row_row E s x hs hrow]
      simp only []
      rw [row_loop_frame, fetch_row_alloc_frame]
      rfl
    · rw [fetch_row_done E s x hs hrow, reset_stmt_eq]
      rfl

theorem sql_column_names_db (s : SQLL W) : (sql_column_names E s).2._db = s._db := by
  cases hs : s._stmt with
  | none => rw [sql_column_names_none E s hs, reset_stmt_eq]
  | some x =>
    rw [sql_column_names_some E s x hs]
    simp only []
    rw [colnames_loop_frame, sql_column_names_alloc_frame]

theorem sql_value_db (sql : CStr) (ap : List CStr) (s : SQLL W) :
    (sql_value E sql ap s).2._db = s._db := by
  have hf := (fetch_row_db E (_sql_prepare E sql ap s).2).trans (_sql_prepare_db E sql ap s)
  unfold sql_value
  simp only []
  split
  · split
    · exact hf
    · exact hf
  · exact hf

theorem reset_db (s : SQLL W) : (reset E s)._db = none := by
  unfold reset
  simp only []
  split
  · rfl
  · rename_i h; exact h

theorem run_db_none (op : Op) (s : SQLL W) (h : s._db = none) : (op.run E s)._db = none := by
  cases op with
  | sql_prepare text ap => exact (_sql_prepare_db E text ap s).trans h
  | sql_do text ap =>
    show (sqlite3_changes E (reset_stmt E (sqlite3_step E (_sql_prepare E text ap s).2).2)).2._db
      = none
    rw [sqlite3_changes_eq, reset_stmt_eq]
    exact (_sql_prepare_db E text ap s).trans h
  | sql_value text ap => exact (sql_value_db E text ap s).trans h
  | fetch_row => exact (fetch_row_db E s).trans h
  | sql_column_names => exact (sql_column_names_db E s).trans h
  | sqlite_version => exact (sql_value_db E _ _ s).trans h
  | reset_stmt =>
    show (reset_stmt E s)._db = none
    rw [reset_stmt_eq]; exact h
  | reset => exact reset_db E s
  | error str => exact reset_db E _
  | error_msg str =>
    show (error_msg E str s)._db = none
    rw [error_msg_eq]; exact h

theorem runOps_db_none (ops : List Op) : ∀ (s : SQLL W), s._db = none →
    (runOps E ops s)._db = none := by
  induction ops with
  | nil => intro s h; exact h
  | cons op ops ih => intro s h; exact ih _ (run_db_none E op s h)

end frames

/-! ## Placeholder counting -/

/-- C1: on a text without an embedded terminator whose scanned part is shorter than 2^31
characters (so that the `int` counters do not overflow), `num_params` returns the number of
`?` characters among the first `min (length s) MAX_STRING_LENGTH` characters of the text,
whatever surrounds them: quotes and comments are not parsed. -/
theorem num_params_counts (MAX_STRING_LENGTH : Nat) (s : CStr)
    (hnul : ∀ c ∈ s, c ≠ Char.ofNat 0)
    (hfit : min s.length MAX_STRING_LENGTH < 2147483648) :
    num_params MAX_STRING_LENGTH s =
      some (((s.take (min s.length MAX_STRING_LENGTH)).count '?' : Nat) : Int) := by
  have hlen : strlen s = s.length := by
    unfold strlen
    rw [List.takeWhile_eq_self_iff.mpr (fun c hc => by simpa using hnul c hc)]
  have h := num_params_loop_spec s (min s.length MAX_STRING_LENGTH) hfit (Nat.min_le_left _ _)
    (min s.length MAX_STRING_LENGTH) 0 0 (by omega) (Nat.le_refl 0)
  simp only [num_params, strnlen, hlen]
  simpa using h

/-- The text `SELECT '?' WHERE a = ?` has two placeholder characters for `num_params`, the
quoted one included. -/
theorem num_params_counts_witness :
    min "SELECT '?' WHERE a = ?".toList.length 1024 < 2147483648 ∧
    num_params 1024 "SELECT '?' WHERE a = ?".toList = some 2 ∧
    num_params 1024 "SELECT a FROM t".toList = some 0 :=
  ⟨by decide,
   (num_params_counts 1024 "SELECT '?' WHERE a = ?".toList (by decide) (by decide)).trans
      (by decide),
   (num_params_counts 1024 "SELECT a FROM t".toList (by decide) (by decide)).trans
      (by decide)⟩

/-! ## Preparing a statement -/

section claims

variable {W : Type} (E : Engine W)

/-- C3: when the engine rejects the text, `sql_prepare` returns 0 and the session holds no
statement: `stmt()` is null, `num_sql_columns()` is 0, both buffers are unallocated, and a
handle the engine left behind has been finalized. -/
theorem sql_prepare_rejected (s : SQLL W) (sql : CStr) (ap : List CStr)
    (hrc : (E.prepare_v2 (reset_stmt E s).world s._db sql).1 ≠ 0) :
    (sql_prepare E sql ap s).1 = 0 ∧
    stmt (sql_prepare E sql ap s).2 = none ∧
    num_sql_columns (sql_prepare E sql ap s).2 = 0 ∧
    (sql_prepare E sql ap s).2._row = none ∧
    (sql_prepare E sql ap s).2._sql_colnames = none ∧
    (∀ h, (E.prepare_v2 (reset_stmt E s).world s._db sql).2.1 = some h →
      Call.finalize h ∈ (sql_prepare E sql ap s).2.log) := by
  unfold sql_prepare num_sql_columns stmt
  simp only []
  rw [_sql_prepare_fail E sql ap s hrc]
  simp only []
  rw [reset_stmt_eq]
  refine ⟨rfl, rfl, rfl, rfl, rfl, ?_⟩
  intro h hh
  rw [error_msg_eq]
  simp [hh]

theorem sql_prepare_rejected_witness :
    (toyEngine.prepare_v2 (reset_stmt toyEngine opened).world opened._db "!".toList).1 ≠ 0 ∧
    (sql_prepare toyEngine "!".toList [] opened).1 = 0 ∧
    stmt (sql_prepare toyEngine "!".toList [] opened).2 = none ∧
    Call.finalize 9 ∈ (sql_prepare toyEngine "!".toList [] opened).2.log :=
  have h := sql_prepare_rejected toyEngine opened "!".toList [] (by decide)
  ⟨by decide, h.1, h.2.1, h.2.2.2.2.2 9 (by decide)⟩

/-- C4: when the engine accepts the text and as many parameters are supplied as the
statement has placeholders, `sql_prepare` returns the engine's column count of the compiled
statement, `num_sql_columns()` then returns the same number (0 for a statement without
columns), the statement is held, and each placeholder is bound to its supplied value. -/
theorem sql_prepare_column_count (s : SQLL W) (sql : CStr) (ap : List CStr)
    (hrc : (E.prepare_v2 (reset_stmt E s).world s._db sql).1 = 0)
    (hN : ap.length =
      sqlite3_bind_parameter_count E (E.prepare_v2 (reset_stmt E s).world s._db sql).2.1) :
    (sql_prepare E sql ap s).1 =
      sqlite3_column_count E (E.prepare_v2 (reset_stmt E s).world s._db sql).2.1 ∧
    num_sql_columns (sql_prepare E sql ap s).2 = (sql_prepare E sql ap s).1 ∧
    (sqlite3_column_count E (E.prepare_v2 (reset_stmt E s).world s._db sql).2.1 = 0 →
      (sql_prepare E sql ap s).1 = 0) ∧
    stmt (sql_prepare E sql ap s).2 = (E.prepare_v2 (reset_stmt E s).world s._db sql).2.1 ∧
    (sql_prepare E sql ap s).2.log =
      (reset_stmt E s).log ++
        Call.prepare_v2 s._db sql 0 (E.prepare_v2 (reset_stmt E s).world s._db sql).2.1 ::
        supplied_binds (E.prepare_v2 (reset_stmt E s).world s._db sql).2.1 1 ap := by
  unfold sql_prepare num_sql_columns stmt
  simp only []
  rw [_sql_prepare_ok E sql ap s hrc]
  simp only []
  rw [bind_loop_eq E _ _ 1 ap _ (by omega)]
  refine ⟨rfl, trivial, fun h => h, rfl, ?_⟩
  rw [binds_split _ ap 1 _ (by omega), ← hN, hrc]
  simp [unsupplied_binds]

theorem sql_prepare_column_count_witness :
    (toyEngine.prepare_v2 (reset_stmt toyEngine opened).world opened._db
      "SELECT a, b WHERE c = ?".toList).1 = 0 ∧
    (sql_prepare toyEngine "SELECT a, b WHERE c = ?".toList ["x".toList] opened).1 = 2 ∧
    num_sql_columns
      (sql_prepare toyEngine "SELECT a, b WHERE c = ?".toList ["x".toList] opened).2 = 2 :=
  have h := sql_prepare_column_count toyEngine opened "SELECT a, b WHERE c = ?".toList
    ["x".toList] (by decide) (by decide)
  ⟨by decide, h.1.trans (by decide), (h.2.1.trans h.1).trans (by decide)⟩

end claims

section claims_lifecycle

variable {W : Type} (E : Engine W)

theorem _sql_prepare_log (sql : CStr) (ap : List CStr) (s : SQLL W) :
    ∃ rest, (_sql_prepare E sql ap s).2.log =
      (reset_stmt E s).log ++
        Call.prepare_v2 s._db sql (E.prepare_v2 (reset_stmt E s).world s._db sql).1
          (E.prepare_v2 (reset_stmt E s).world s._db sql).2.1 :: rest := by
  by_cases hrc : (E.prepare_v2 (reset_stmt E s).world s._db sql).1 = 0
  · rw [_sql_prepare_ok E sql ap s hrc]
    simp only []
    rw [bind_loop_eq E _ _ 1 ap _ (by omega)]
    refine ⟨(List.range (sqlite3_bind_parameter_count E
      (E.prepare_v2 (reset_stmt E s).world s._db sql).2.1)).map
        (fun i => Call.bind_text (E.prepare_v2 (reset_stmt E s).world s._db sql).2.1
          (1 + i) (ap.get? i)), ?_⟩
    simp
  · rw [_sql_prepare_fail E sql ap s hrc]
    simp only []
    rw [reset_stmt_eq]
    obtain ⟨new, hl, _⟩ := error_msg_log E (some "sql_prepare".toList)
      { reset_stmt E s with
        _stmt := (E.prepare_v2 (reset_stmt E s).world s._db sql).2.1,
        world := (E.prepare_v2 (reset_stmt E s).world s._db sql).2.2,
        log := (reset_stmt E s).log ++
          [Call.prepare_v2 s._db sql (E.prepare_v2 (reset_stmt E s).world s._db sql).1
            (E.prepare_v2 (reset_stmt E s).world s._db sql).2.1] }
    simp only [hl]
    exact ⟨_, by simp only [List.append_assoc, List.singleton_append]; rfl⟩

theorem fetch_row_log (s : SQLL W) :
    ∃ new, (fetch_row E s).2.log = s.log ++ new ∧
      ∀ st rc, Call.step st rc ∈ new → st = s._stmt := by
  cases hs : s._stmt with
  | none =>
    rw [fetch_row_none E s hs, reset_stmt_eq]
    exact ⟨[], by simp [hs], by simp⟩
  | some x =>
    by_cases hrow : (sqlite3_step E s).1 = SQLITE_ROW
    · rw [fetch_row_row E s x hs hrow]
      simp only []
      rw [row_loop_frame, fetch_row_alloc_frame]
      refine ⟨[Call.step s._stmt (E.step s.world s._stmt).1], rfl, ?_⟩
      intro st rc hmem
      simp at hmem
      rw [hmem.1, hs]
    · rw [fetch_row_done E s x hs hrow, reset_stmt_eq]
      refine ⟨[Call.step s._stmt (E.step s.world s._stmt).1, Call.finalize x], ?_, ?_⟩
      · simp [sqlite3_step, hs]
      · intro st rc hmem
        simp at hmem
        rw [hmem.1, hs]

/-- C5: in every state reached from a freshly constructed session by public operations, the
statements handed out by the engine and not yet finalized number one if `stmt()` is non-null
and zero otherwise. A `sql_prepare` on a session holding a statement finalizes that
statement before it compiles the new text, and `fetch_row` steps no statement other than the
one held. -/
theorem one_statement_at_a_time (filename : Option CStr) (w : W) (ops : List Op) :
    created (runOps E ops (SQLL.new filename w)).log =
      finalized (runOps E ops (SQLL.new filename w)).log +
        (if (stmt (runOps E ops (SQLL.new filename w))).isSome then 1 else 0) ∧
    (∀ (s : SQLL W) (h : Handle) (sql : CStr) (ap : List CStr), stmt s = some h →
      ∃ rest, (sql_prepare E sql ap s).2.log =
        s.log ++ Call.finalize h ::
          Call.prepare_v2 s._db sql (E.prepare_v2 (reset_stmt E s).world s._db sql).1
            (E.prepare_v2 (reset_stmt E s).world s._db sql).2.1 :: rest) ∧
    (∀ (s : SQLL W), ∃ new, (fetch_row E s).2.log = s.log ++ new ∧
      ∀ st rc, Call.step st rc ∈ new → st = stmt s) := by
  refine ⟨?_, ?_, fetch_row_log E⟩
  · exact bal_runOps E ops (SQLL.new filename w) rfl
  · intro s h sql ap hs
    obtain ⟨rest, hrest⟩ := _sql_prepare_log E sql ap s
    refine ⟨rest, ?_⟩
    show (_sql_prepare E sql ap s).2.log = _
    rw [hrest, reset_stmt_eq]
    have hs' : s._stmt = some h := hs
    simp [hs']

theorem one_statement_at_a_time_witness :
    stmt (sql_prepare toyEngine "SELECT a".toList [] opened).2 = some 110 ∧
    (∃ rest, (sql_prepare toyEngine "SELECT b".toList []
        (sql_prepare toyEngine "SELECT a".toList [] opened).2).2.log =
      (sql_prepare toyEngine "SELECT a".toList [] opened).2.log ++
        Call.finalize 110 ::
          Call.prepare_v2 (sql_prepare toyEngine "SELECT a".toList [] opened).2._db
            "SELECT b".toList
            (toyEngine.prepare_v2
              (reset_stmt toyEngine (sql_prepare toyEngine "SELECT a".toList [] opened).2).world
              (sql_prepare toyEngine "SELECT a".toList [] opened).2._db "SELECT b".toList).1
            (toyEngine.prepare_v2
              (reset_stmt toyEngine (sql_prepare toyEngine "SELECT a".toList [] opened).2).world
              (sql_prepare toyEngine "SELECT a".toList [] opened).2._db "SELECT b".toList).2.1
            :: rest) ∧
    created (runOps toyEngine [Op.sql_prepare "SELECT a".toList []]
        (SQLL.new none 0)).log =
      finalized (runOps toyEngine [Op.sql_prepare "SELECT a".toList []]
        (SQLL.new none 0)).log +
        (if (stmt (runOps toyEngine [Op.sql_prepare "SELECT a".toList []]
          (SQLL.new none 0))).isSome then 1 else 0) :=
  ⟨by decide,
   (one_statement_at_a_time toyEngine none 0 []).2.1
      (sql_prepare toyEngine "SELECT a".toList [] opened).2 110 "SELECT b".toList []
      (by decide),
   (one_statement_at_a_time toyEngine none 0 [Op.sql_prepare "SELECT a".toList []]).1⟩

/-- C6: `fetch_row` returns no row when no statement is held or when the engine's step
result is not `SQLITE_ROW`; the session then holds no statement, reports 0 columns, and has
released both buffers. In particular `fetch_row` right after `reset_stmt` returns no row. -/
theorem fetch_row_no_row (s : SQLL W)
    (h : stmt s = none ∨ (E.step s.world s._stmt).1 ≠ SQLITE_ROW) :
    (fetch_row E s).1 = none ∧
    stmt (fetch_row E s).2 = none ∧
    num_sql_columns (fetch_row E s).2 = 0 ∧
    (fetch_row E s).2._row = none ∧
    (fetch_row E s).2._sql_colnames = none ∧
    (fetch_row E (reset_stmt E s)).1 = none := by
  have hreset : (fetch_row E (reset_stmt E s)).1 = none := by
    rw [fetch_row_none E _ (by rw [reset_stmt_eq])]
  have hshape : ∃ t, fetch_row E s = (none, reset_stmt E t) := by
    cases hs : s._stmt with
    | none => exact ⟨s, fetch_row_none E s hs⟩
    | some x =>
      have hrc : (sqlite3_step E s).1 ≠ SQLITE_ROW := by
        rcases h with h | h
        · exact absurd (h.symm.trans hs) (by simp)
        · exact h
      exact ⟨_, fetch_row_done E s x hs hrc⟩
  obtain ⟨t, ht⟩ := hshape
  refine ⟨?_, ?_, ?_, ?_, ?_, hreset⟩ <;> rw [ht, reset_stmt_eq] <;> rfl

theorem fetch_row_no_row_witness :
    (toyEngine.step (sql_prepare toyEngine "CREATE TABLE t (a)".toList [] opened).2.world
      (sql_prepare toyEngine "CREATE TABLE t (a)".toList [] opened).2._stmt).1 ≠ SQLITE_ROW ∧
    stmt (sql_prepare toyEngine "CREATE TABLE t (a)".toList [] opened).2 = some 100 ∧
    (fetch_row toyEngine
      (sql_prepare toyEngine "CREATE TABLE t (a)".toList [] opened).2).1 = none ∧
    stmt (fetch_row toyEngine
      (sql_prepare toyEngine "CREATE TABLE t (a)".toList [] opened).2).2 = none :=
  have h := fetch_row_no_row toyEngine
    (sql_prepare toyEngine "CREATE TABLE t (a)".toList [] opened).2 (Or.inr (by decide))
  ⟨by decide, by decide, h.1, h.2.1⟩

/-- C7, as the code behaves: no member function opens a connection. After construction and
any sequence of public operations `db()` is null, and the first `sql_prepare`, `sql_do` or
`sql_value` hands the null handle to the engine's compile call. -/
theorem connection_never_opened (filename : Option CStr) (w : W) :
    (∀ ops, db (runOps E ops (SQLL.new filename w)) = none) ∧
    (∀ sql ap,
      db (sql_prepare E sql ap (SQLL.new filename w)).2 = none ∧
      db (sql_do E sql ap (SQLL.new filename w)).2 = none ∧
      db (sql_value E sql ap (SQLL.new filename w)).2 = none ∧
      ∃ rest, (sql_prepare E sql ap (SQLL.new filename w)).2.log =
        Call.prepare_v2 none sql (E.prepare_v2 w none sql).1 (E.prepare_v2 w none sql).2.1 ::
          rest) := by
  refine ⟨fun ops => runOps_db_none E ops _ rfl, fun sql ap => ⟨?_, ?_, ?_, ?_⟩⟩
  · exact run_db_none E (Op.sql_prepare sql ap) _ rfl
  · exact run_db_none E (Op.sql_do sql ap) _ rfl
  · exact run_db_none E (Op.sql_value sql ap) _ rfl
  · obtain ⟨rest, hrest⟩ := _sql_prepare_log E sql ap (SQLL.new filename w)
    exact ⟨rest, hrest⟩

/-- C8: in every state reached from a freshly constructed session by public operations,
`num_sql_columns()` is the engine's column count of the held statement and 0 when none is
held; an allocated row buffer and an allocated column-name buffer have exactly
`num_sql_columns()` cells; both are unallocated when no statement is held; and no store of
`fetch_row` or `sql_column_names` fell outside its buffer. -/
theorem buffers_match_column_count (filename : Option CStr) (w : W) (ops : List Op) :
    num_sql_columns (runOps E ops (SQLL.new filename w)) =
      sqlite3_column_count E (stmt (runOps E ops (SQLL.new filename w))) ∧
    (stmt (runOps E ops (SQLL.new filename w)) = none →
      num_sql_columns (runOps E ops (SQLL.new filename w)) = 0) ∧
    (∀ b, (runOps E ops (SQLL.new filename w))._row = some b →
      b.length = num_sql_columns (runOps E ops (SQLL.new filename w))) ∧
    (∀ b, (runOps E ops (SQLL.new filename w))._sql_colnames = some b →
      b.length = num_sql_columns (runOps E ops (SQLL.new filename w))) ∧
    (stmt (runOps E ops (SQLL.new filename w)) = none →
      (runOps E ops (SQLL.new filename w))._row = none ∧
      (runOps E ops (SQLL.new filename w))._sql_colnames = none) ∧
    (runOps E ops (SQLL.new filename w)).fault = false := by
  have hsz : Sized E (runOps E ops (SQLL.new filename w)) :=
    sized_runOps E ops _ ⟨rfl, rfl, fun b hb => by simp [SQLL.new] at hb,
      fun b hb => by simp [SQLL.new] at hb⟩
  obtain ⟨h1, h2, h3, h4⟩ := hsz
  have h0 : stmt (runOps E ops (SQLL.new filename w)) = none →
      (runOps E ops (SQLL.new filename w))._num_sql_cols = 0 := by
    intro hn
    have hn' : (runOps E ops (SQLL.new filename w))._stmt = none := hn
    rw [h2, hn']
    rfl
  refine ⟨h2, h0, fun b hb => (h3 b hb).1, fun b hb => (h4 b hb).1, ?_, h1⟩
  intro hn
  have hz := h0 hn
  constructor
  · cases hr : (runOps E ops (SQLL.new filename w))._row with
    | none => rfl
    | some b => have := (h3 b hr).2; omega
  · cases hr : (runOps E ops (SQLL.new filename w))._sql_colnames with
    | none => rfl
    | some b => have := (h4 b hr).2; omega

theorem buffers_match_column_count_witness :
    (runOps toyEngine [Op.sql_prepare "SELECT a, b".toList [], Op.fetch_row,
      Op.sql_column_names] opened)._row = some [some ['0'], some ['1']] ∧
    num_sql_columns (runOps toyEngine [Op.sql_prepare "SELECT a, b".toList [], Op.fetch_row,
      Op.sql_column_names] opened) = 2 ∧
    (runOps toyEngine [Op.sql_prepare "SELECT a, b".toList [], Op.fetch_row]
      (SQLL.new none 0)).fault = false :=
  ⟨by decide, by decide,
   (buffers_match_column_count toyEngine none 0
      [Op.sql_prepare "SELECT a, b".toList [], Op.fetch_row]).2.2.2.2.2⟩

/-- C9: `reset` and `reset_stmt` are idempotent. A second `reset` changes nothing, and two
`reset` calls finalize at most one statement and close at most one connection; a second
`reset_stmt` changes nothing, two calls finalize at most one statement, and `db()` is the
same as before. -/
theorem reset_idempotent (s : SQLL W) :
    reset E (reset E s) = reset E s ∧
    finalized (reset E (reset E s)).log ≤ finalized s.log + 1 ∧
    closed (reset E (reset E s)).log ≤ closed s.log + 1 ∧
    reset_stmt E (reset_stmt E s) = reset_stmt E s ∧
    finalized (reset_stmt E (reset_stmt E s)).log ≤ finalized s.log + 1 ∧
    db (reset_stmt E (reset_stmt E s)) = db s := by
  have hrs : reset_stmt E (reset_stmt E s) = reset_stmt E s := by
    rw [reset_stmt_eq E (reset_stmt E s)]
    rw [reset_stmt_eq E s]
    simp
  have hfin : finalized (reset_stmt E s).log ≤ finalized s.log + 1 := by
    rw [reset_stmt_eq]
    simp only [finalized_append]
    cases s._stmt <;> simp [finalized]
  have hclo : closed (reset_stmt E s).log = closed s.log := by
    rw [reset_stmt_eq]
    simp only [closed_append]
    cases s._stmt <;> simp [closed]
  have hr : reset E (reset E s) = reset E s := by
    unfold reset
    simp only []
    cases hd : (reset_stmt E s)._db with
    | none => simp [hd, hrs]
    | some d =>
      simp only []
      rw [reset_stmt_eq]
      rw [reset_stmt_eq E s] at hd ⊢
      simp
  refine ⟨hr, ?_, ?_, hrs, ?_, ?_⟩
  · rw [hr]
    unfold reset
    simp only []
    split
    · simp only [finalized_append]
      have : finalized [Call.close ‹Handle›] = 0 := rfl
      omega
    · exact hfin
  · rw [hr]
    unfold reset
    simp only []
    split
    · simp only [closed_append, hclo]
      have : closed [Call.close ‹Handle›] = 1 := rfl
      omega
    · omega
  · rw [hrs]; exact hfin
  · rw [hrs, reset_stmt_eq]; rfl

end claims_lifecycle

end sql
